import Mathlib

set_option autoImplicit false

/-!
Verification development for the Orca mobile time-tracking client.

The client-side workday / clock-period / clock-session state machine
(WorkdayProvider), the background location service, the identity resolver
(EmployeeProvider) and the time-entry history screen are embedded shallowly.
Remote procedure calls and platform effects are modelled by explicit oracle
values describing the outcome the awaited call produced, and every action
returns the resulting in-memory state, the durable key-value store, and the
list of outgoing effects in program order.  A thrown JavaScript error is
modelled by the Res.thrown result; the machine component then reflects
exactly the mutations performed before the throw.

React state reads inside an action body see the render-time snapshot of the
provider state (stale closures), while writes accumulate into the next state;
the embedding therefore passes a read-only snapshot alongside the current
machine, and nested calls (startJob calling clockIn, clockOut and endWorkday
calling endJob) share the snapshot of the outer invocation.
-/

/-- Result of an awaited client operation: either the value it returned, or a
thrown error that propagates to the caller. -/
inductive Res (α : Type) where
  | ok (val : α)
  | thrown
  deriving Repr, DecidableEq

/-- In-memory provider state of the WorkdayProvider: the three nested active
identifiers plus the GPS and permission flags.  Each nesting level is a single
optional identifier, so at most one id per level is active by construction. -/
structure Client where
  workdayId : Option String
  clockPeriodId : Option String
  clockSessionId : Option String
  isGpsTracking : Bool
  hasLocationPermission : Bool
  hasBackgroundLocationPermission : Bool
  deriving Repr, DecidableEq

/-- Durable local key-value store: the three persisted active ids
(orca_active_workday_id, orca_active_clock_period_id,
orca_active_clock_session_id); a none value models a removed key. -/
structure Store where
  activeWorkdayId : Option String
  activeClockPeriodId : Option String
  activeClockSessionId : Option String
  deriving Repr, DecidableEq

/-- Combined client state: in-memory provider state plus durable storage. -/
structure Machine where
  client : Client
  store : Store
  deriving Repr, DecidableEq

/-- Row inserted into the time_entries table by endJob. -/
structure TimeEntryInsert where
  clock_session_id : String
  user_id : String
  employee_id : String
  client_id : Option String
  organization_id : Option String
  property_id : Option String
  billing_category_id : Option String
  unit_id : Option String
  start_ts : Int
  end_ts : Int
  duration_minutes : Int
  notes : Option String
  status : String
  source : String
  locked : Bool
  deriving Repr, DecidableEq

/-- Clock-session row as selected by endJob (timestamps in milliseconds; a
missing or falsy start_time is modelled as none). -/
structure SessionRow where
  user_id : String
  client_id : Option String
  workday_id : Option String
  property_id : Option String
  billing_category_id : Option String
  unit_id : Option String
  notes : Option String
  start_time : Option Int
  deriving Repr, DecidableEq

/-- Row returned by the get_active_workday remote procedure. -/
structure WorkdayRow where
  id : String
  start_time : Int
  deriving Repr, DecidableEq

/-- Row returned by the get_active_clock_period remote procedure. -/
structure PeriodRow where
  id : String
  workday_id : Option String
  start_time : Int
  deriving Repr, DecidableEq

/-- Observable outgoing effect: a remote call, a platform location call, or a
write to the durable key-value store, recorded in program order. -/
inductive Eff where
  | clockInRpc (notes : Option String)
  | clockOutRpc
  | startSessionRpc (workdayId notes propertyId billingCategoryId unitId : Option String)
  | endWorkdayRpc (workdayId : String)
  | getActiveClockPeriodRpc
  | getActiveWorkdayRpc
  | fetchSessionRpc (sessionId : String)
  | updateSessionEndRpc (sessionId : String) (endTime : Int)
  | insertTimeEntryRpc (entry : TimeEntryInsert)
  | requestPermissionsEff
  | startTrackingEff
  | stopTrackingEff
  | storeWorkdayEff (v : Option String)
  | storePeriodEff (v : Option String)
  | storeSessionEff (v : Option String)
  deriving Repr, DecidableEq

/-- Result of one embedded action: the returned or thrown value, the machine
state after the action, and the effect trace it produced. -/
structure Outcome (α : Type) where
  result : Res α
  machine : Machine
  trace : List Eff
  deriving Repr, DecidableEq

/-- Outcome of the clock_in remote procedure: an error, a null data payload,
or the returned workday id, clock period id and reopen flag. -/
inductive ClockInData where
  | rpcError
  | noData
  | rpcOk (workday_id clock_period_id : String) (was_reopened : Bool)
  deriving Repr, DecidableEq

/-- Platform location permission statuses after a check or request. -/
structure Perms where
  foreground : Bool
  background : Bool
  deriving Repr, DecidableEq

/-- Value returned by clockIn on success. -/
structure ClockInResult where
  workdayId : String
  clockPeriodId : String
  wasReopened : Bool
  hasBackgroundPermission : Bool
  deriving Repr, DecidableEq

/-- Models the JavaScript expression (x || null) applied to an optional
string argument: a missing or empty string becomes null. -/
def orNull (s : Option String) : Option String :=
  match s with
  | some "" => none
  | x => x

/-- Parameters of startJob. -/
structure JobParams where
  notes : Option String
  propertyId : Option String
  billingCategoryId : Option String
  unitId : Option String
  deriving Repr, DecidableEq

/-- Value returned by startJob on success.  The TypeScript type promises
non-null strings, but the runtime value can be null when the recovery path
found a period row with a null workday id or the start_clock_session data was
null, so both fields are optional here. -/
structure StartJobResult where
  workdayId : Option String
  clockSessionId : Option String
  didClockIn : Bool
  hasBackgroundPermission : Bool
  deriving Repr, DecidableEq

/-- Outcome of the start_clock_session remote procedure: error, or the data
payload it returned (the new session id, possibly null). -/
inductive SessionRpc where
  | rpcError
  | rpcOk (sessionId : Option String)
  deriving Repr, DecidableEq

/-- Value returned by startLocationTracking in the current revision. -/
structure TrackingResult where
  success : Bool
  hasBackgroundPermission : Bool
  deriving Repr, DecidableEq

/-- Oracle for one startJob invocation: outcomes of the remote calls it may
issue, in order of possible use. -/
structure StartJobOracle where
  clockInData : ClockInData
  perms : Perms
  periodRows : List PeriodRow
  session : SessionRpc
  tracking : TrackingResult
  deriving Repr, DecidableEq

/-- Outcome of the clock_sessions select issued by endJob. -/
inductive FetchSession where
  | rpcError
  | rpcOk (row : SessionRow)
  deriving Repr, DecidableEq

/-- Oracle for one endJob invocation: the fetched session row, whether the
end_time update and the time_entries insert succeed, and the current time in
milliseconds used as the end timestamp. -/
structure EndJobOracle where
  fetch : FetchSession
  updateOk : Bool
  insertOk : Bool
  now : Int
  deriving Repr, DecidableEq

/-- Oracle for one clockOut invocation. -/
structure ClockOutOracle where
  endJob : EndJobOracle
  clockOutOk : Bool
  deriving Repr, DecidableEq

/-- Oracle for one endWorkday invocation. -/
structure EndWorkdayOracle where
  endJob : EndJobOracle
  clockOutOk : Bool
  endWorkdayOk : Bool
  deriving Repr, DecidableEq

/-- Outcome of the single-row clock_sessions lookup made by refreshState for
a stored session id: an error (including no row found), or the row id and its
end_time column. -/
inductive SessionLookup where
  | rpcError
  | rpcOk (id : String) (end_time : Option Int)
  deriving Repr, DecidableEq

/-- Outcome of a list-returning remote procedure. -/
inductive RpcRows (α : Type) where
  | rpcError
  | rpcOk (rows : List α)
  deriving Repr, DecidableEq

/-- Oracle for one refreshState invocation. -/
structure RefreshOracle where
  workday : RpcRows WorkdayRow
  period : RpcRows PeriodRow
  session : SessionLookup
  tracking : Bool
  perms : Perms
  deriving Repr, DecidableEq

namespace Workday

/-- Duration in whole minutes computed by endJob:
Math.floor of (endTimeMs - startTimeMs) / 60000. -/
def durationMinutes (startTimeMs endTimeMs : Int) : Int :=
  ⌊(((endTimeMs - startTimeMs : Int) : ℚ)) / 60000⌋

/-- Embedding of clockIn from the current WorkdayProvider revision: calls the
clock_in remote procedure, throws on error or null data, otherwise stores the
workday and clock period ids in memory and durable storage and requests
location permissions.  It never starts location tracking. -/
def clockIn (cur : Machine) (notes : Option String) (o : ClockInData) (perms : Perms) :
    Outcome ClockInResult :=
  match o with
  | .rpcError => ⟨.thrown, cur, [.clockInRpc (orNull notes)]⟩
  | .noData => ⟨.thrown, cur, [.clockInRpc (orNull notes)]⟩
  | .rpcOk w p r =>
    let c : Client :=
      { cur.client with
        workdayId := some w
        clockPeriodId := some p
        hasLocationPermission := perms.foreground
        hasBackgroundLocationPermission := perms.background }
    let s : Store := { cur.store with activeWorkdayId := some w, activeClockPeriodId := some p }
    ⟨.ok ⟨w, p, r, perms.background⟩, ⟨c, s⟩,
      [.clockInRpc (orNull notes), .storeWorkdayEff (some w), .storePeriodEff (some p),
        .requestPermissionsEff]⟩

/-- Embedding of endJob from the current WorkdayProvider revision.  A missing
active session id is a guarded no-op.  Otherwise the session row is fetched,
its end_time is stamped, and a derived time entry is inserted; an insert
failure is logged only and does not roll back the session close.  The active
session id is then cleared in memory and storage and tracking is stopped. -/
def endJob (snap : Client) (cur : Machine) (employeeId : String) (o : EndJobOracle) :
    Outcome Unit :=
  match snap.clockSessionId with
  | none => ⟨.ok (), cur, []⟩
  | some sid =>
    match o.fetch with
    | .rpcError => ⟨.thrown, cur, [.fetchSessionRpc sid]⟩
    | .rpcOk row =>
      match row.start_time with
      | none => ⟨.thrown, cur, [.fetchSessionRpc sid]⟩
      | some startMs =>
        if !o.updateOk then
          ⟨.thrown, cur, [.fetchSessionRpc sid, .updateSessionEndRpc sid o.now]⟩
        else
          let entry : TimeEntryInsert :=
            { clock_session_id := sid
              user_id := row.user_id
              employee_id := employeeId
              client_id := row.client_id
              organization_id := row.client_id
              property_id := row.property_id
              billing_category_id := row.billing_category_id
              unit_id := row.unit_id
              start_ts := startMs
              end_ts := o.now
              duration_minutes := durationMinutes startMs o.now
              notes := row.notes
              status := "draft"
              source := "mobile"
              locked := false }
          let c : Client := { cur.client with clockSessionId := none, isGpsTracking := false }
          let s : Store := { cur.store with activeClockSessionId := none }
          ⟨.ok (), ⟨c, s⟩,
            [.fetchSessionRpc sid, .updateSessionEndRpc sid o.now, .insertTimeEntryRpc entry,
              .storeSessionEff none, .stopTrackingEff]⟩

/-- Embedding of clockOut from the current WorkdayProvider revision.  A
missing active clock period is a guarded no-op.  Otherwise any active job is
ended first, the clock_out remote procedure is called, tracking is stopped
and the period and session state is cleared while the workday stays open. -/
def clockOut (snap : Client) (cur : Machine) (employeeId : String) (o : ClockOutOracle) :
    Outcome Unit :=
  match snap.clockPeriodId with
  | none => ⟨.ok (), cur, []⟩
  | some _ =>
    let step1 : Outcome Unit :=
      match snap.clockSessionId with
      | some _ => endJob snap cur employeeId o.endJob
      | none => ⟨.ok (), cur, []⟩
    match step1 with
    | ⟨.thrown, m1, t1⟩ => ⟨.thrown, m1, t1⟩
    | ⟨.ok _, m1, t1⟩ =>
      let t2 := t1 ++ [.clockOutRpc]
      if !o.clockOutOk then ⟨.thrown, m1, t2⟩
      else
        let c : Client :=
          { m1.client with isGpsTracking := false, clockPeriodId := none, clockSessionId := none }
        let s : Store := { m1.store with activeClockPeriodId := none, activeClockSessionId := none }
        ⟨.ok (), ⟨c, s⟩, t2 ++ [.stopTrackingEff, .storePeriodEff none, .storeSessionEff none]⟩

/-- Embedding of startJob from the current WorkdayProvider revision.  If no
clock period is active it performs the implicit clockIn upgrade first; if a
period is active but the workday id is stale it recovers the workday id from
the active clock period.  Then it calls start_clock_session, stores the new
session id in memory and durable storage, and only afterwards starts location
tracking (when not already tracking and foreground permission is held). -/
def startJob (snap : Client) (cur : Machine) (params : JobParams) (o : StartJobOracle) :
    Outcome StartJobResult :=
  let phase1 : Res (Option String × Bool × Bool) × Machine × List Eff :=
    match snap.clockPeriodId with
    | none =>
      match clockIn cur none o.clockInData o.perms with
      | ⟨.thrown, m1, t1⟩ => (.thrown, m1, t1)
      | ⟨.ok r, m1, t1⟩ => (.ok (some r.workdayId, true, r.hasBackgroundPermission), m1, t1)
    | some _ =>
      match snap.workdayId with
      | some w => (.ok (some w, false, snap.hasBackgroundLocationPermission), cur, [])
      | none =>
        match o.periodRows with
        | [] => (.thrown, cur, [.getActiveClockPeriodRpc])
        | row :: _ =>
          let c : Client := { cur.client with workdayId := row.workday_id }
          let s : Store := { cur.store with activeWorkdayId := row.workday_id }
          (.ok (row.workday_id, false, snap.hasBackgroundLocationPermission), ⟨c, s⟩,
            [.getActiveClockPeriodRpc, .storeWorkdayEff row.workday_id])
  match phase1 with
  | (.thrown, m1, t1) => ⟨.thrown, m1, t1⟩
  | (.ok (activeW, didClockIn, bg), m1, t1) =>
    let t2 := t1 ++
      [.startSessionRpc activeW (orNull params.notes) (orNull params.propertyId)
        (orNull params.billingCategoryId) (orNull params.unitId)]
    match o.session with
    | .rpcError => ⟨.thrown, m1, t2⟩
    | .rpcOk sid =>
      let m2 : Machine :=
        ⟨{ m1.client with clockSessionId := sid }, { m1.store with activeClockSessionId := sid }⟩
      let t3 := t2 ++ [.storeSessionEff sid]
      if !snap.isGpsTracking && snap.hasLocationPermission then
        let m3 : Machine :=
          ⟨{ m2.client with
              isGpsTracking := o.tracking.success
              hasBackgroundLocationPermission := o.tracking.hasBackgroundPermission },
            m2.store⟩
        ⟨.ok ⟨activeW, sid, didClockIn, o.tracking.hasBackgroundPermission⟩, m3,
          t3 ++ [.startTrackingEff]⟩
      else
        ⟨.ok ⟨activeW, sid, didClockIn, bg⟩, m2, t3⟩

/-- Embedding of endWorkday from the current WorkdayProvider revision.  A
missing active workday is a guarded no-op.  Otherwise any active job is ended
first, a clock_out call is made if still clocked in (its error only logged),
then end_workday is called; on success tracking stops and all three active
ids are cleared in memory and durable storage. -/
def endWorkday (snap : Client) (cur : Machine) (employeeId : String) (o : EndWorkdayOracle) :
    Outcome Unit :=
  match snap.workdayId with
  | none => ⟨.ok (), cur, []⟩
  | some wid =>
    let step1 : Outcome Unit :=
      match snap.clockSessionId with
      | some _ => endJob snap cur employeeId o.endJob
      | none => ⟨.ok (), cur, []⟩
    match step1 with
    | ⟨.thrown, m1, t1⟩ => ⟨.thrown, m1, t1⟩
    | ⟨.ok _, m1, t1⟩ =>
      let t2 :=
        match snap.clockPeriodId with
        | some _ => t1 ++ [.clockOutRpc]
        | none => t1
      let t3 := t2 ++ [.endWorkdayRpc wid]
      if !o.endWorkdayOk then ⟨.thrown, m1, t3⟩
      else
        let c : Client :=
          { m1.client with
            isGpsTracking := false, workdayId := none, clockPeriodId := none,
            clockSessionId := none }
        ⟨.ok (), ⟨c, ⟨none, none, none⟩⟩,
          t3 ++ [.stopTrackingEff, .storeWorkdayEff none, .storePeriodEff none,
            .storeSessionEff none]⟩

/-- Embedding of refreshState from the current WorkdayProvider revision: the
stored session id is read first, the active workday and clock period are
re-derived from the server and overwrite both memory and storage, and a
stored session id is kept only when the server row exists with end_time
unset, otherwise it is cleared in memory and storage. -/
def refreshState (cur : Machine) (o : RefreshOracle) : Machine :=
  let storedSessionId := cur.store.activeClockSessionId
  let m1 : Machine :=
    match o.workday with
    | .rpcOk (row :: _) =>
      ⟨{ cur.client with workdayId := some row.id },
        { cur.store with activeWorkdayId := some row.id }⟩
    | _ => ⟨{ cur.client with workdayId := none }, { cur.store with activeWorkdayId := none }⟩
  let m2 : Machine :=
    match o.period with
    | .rpcOk (row :: _) =>
      let mA : Machine :=
        ⟨{ m1.client with clockPeriodId := some row.id },
          { m1.store with activeClockPeriodId := some row.id }⟩
      match row.workday_id with
      | some w =>
        ⟨{ mA.client with workdayId := some w }, { mA.store with activeWorkdayId := some w }⟩
      | none => mA
    | _ =>
      ⟨{ m1.client with clockPeriodId := none }, { m1.store with activeClockPeriodId := none }⟩
  let m3 : Machine :=
    match storedSessionId with
    | none => m2
    | some _ =>
      match o.session with
      | .rpcOk i none => ⟨{ m2.client with clockSessionId := some i }, m2.store⟩
      | _ =>
        ⟨{ m2.client with clockSessionId := none },
          { m2.store with activeClockSessionId := none }⟩
  ⟨{ m3.client with
      isGpsTracking := o.tracking
      hasLocationPermission := o.perms.foreground
      hasBackgroundLocationPermission := o.perms.background },
    m3.store⟩

/-- One user-level action of the state machine together with the oracle
describing the outcomes of the remote calls it makes. -/
inductive Action where
  | clockInAct (notes : Option String) (o : ClockInData) (perms : Perms)
  | clockOutAct (o : ClockOutOracle)
  | startJobAct (params : JobParams) (o : StartJobOracle)
  | endJobAct (o : EndJobOracle)
  | endWorkdayAct (o : EndWorkdayOracle)
  deriving Repr

/-- Machine state after one top-level action.  A top-level invocation reads
the current provider state as its snapshot. -/
def step (employeeId : String) (m : Machine) (a : Action) : Machine :=
  match a with
  | .clockInAct n o p => (clockIn m n o p).machine
  | .clockOutAct o => (clockOut m.client m employeeId o).machine
  | .startJobAct p o => (startJob m.client m p o).machine
  | .endJobAct o => (endJob m.client m employeeId o).machine
  | .endWorkdayAct o => (endWorkday m.client m employeeId o).machine

/-- Machine state after a sequence of top-level actions. -/
def run (employeeId : String) (m : Machine) (acts : List Action) : Machine :=
  acts.foldl (step employeeId) m

/-- Signed-in idle provider state: all three active ids null, no tracking,
no permissions. -/
def initClient : Client := ⟨none, none, none, false, false, false⟩

/-- Signed-in idle machine: idle provider state and empty durable storage. -/
def initMachine : Machine := ⟨initClient, ⟨none, none, none⟩⟩

/-- Nesting invariant: an active clock session implies an active clock
period, and an active clock period implies an active workday. -/
def Nested (c : Client) : Prop :=
  (c.clockSessionId ≠ none → c.clockPeriodId ≠ none) ∧
    (c.clockPeriodId ≠ none → c.workdayId ≠ none)

end Workday

namespace Legacy

/-- Value returned by the legacy clockIn on success. -/
structure ClockInResult where
  workdayId : String
  clockPeriodId : String
  wasReopened : Bool
  deriving Repr, DecidableEq

/-- Embedding of clockIn from the legacy WorkdayProvider revision kept at
src/contexts/WorkdayContext.tsx: after the clock_in remote procedure succeeds
it stores the workday and clock period ids, requests permissions, and then,
when foreground permission is granted, starts location tracking right away
(trackingStarted is the oracle value returned by startLocationTracking).  A
null data payload throws at the destructuring. -/
def clockIn (cur : Machine) (notes : Option String) (o : ClockInData) (perms : Perms)
    (trackingStarted : Bool) : Outcome ClockInResult :=
  match o with
  | .rpcError => ⟨.thrown, cur, [.clockInRpc (orNull notes)]⟩
  | .noData => ⟨.thrown, cur, [.clockInRpc (orNull notes)]⟩
  | .rpcOk w p r =>
    let c1 : Client :=
      { cur.client with
        workdayId := some w
        clockPeriodId := some p
        hasLocationPermission := perms.foreground }
    let s : Store := { cur.store with activeWorkdayId := some w, activeClockPeriodId := some p }
    let base : List Eff :=
      [.clockInRpc (orNull notes), .storeWorkdayEff (some w), .storePeriodEff (some p),
        .requestPermissionsEff]
    if perms.foreground then
      ⟨.ok ⟨w, p, r⟩, ⟨{ c1 with isGpsTracking := trackingStarted }, s⟩,
        base ++ [.startTrackingEff]⟩
    else
      ⟨.ok ⟨w, p, r⟩, ⟨c1, s⟩, base⟩

end Legacy

namespace LocationService

/-- GPS coordinate payload of one observed location sample. -/
structure Coords where
  latitude : ℚ
  longitude : ℚ
  accuracy : Option ℚ
  altitude : Option ℚ
  speed : Option ℚ
  heading : Option ℚ
  deriving Repr, DecidableEq

/-- One location sample delivered to the background task. -/
structure LocationObject where
  coords : Coords
  timestamp : Int
  deriving Repr, DecidableEq

/-- Arguments of one append_location_point remote call.  The workday id
parameter is a non-optional string by construction. -/
structure AppendCall where
  p_workday_id : String
  p_latitude : ℚ
  p_longitude : ℚ
  p_clock_session_id : Option String
  p_accuracy : Option ℚ
  p_altitude : Option ℚ
  p_speed : Option ℚ
  p_heading : Option ℚ
  p_recorded_at : Int
  deriving Repr, DecidableEq

/-- Embedding of saveLocationPoints: reads the stored active workday id and
drops the whole batch when it is absent; otherwise forwards every point with
that workday id and the currently stored (possibly null) session id.
Individual call failures are logged and dropped, so the issued call list does
not depend on them. -/
def saveLocationPoints (store : Store) (locations : List LocationObject) : List AppendCall :=
  match store.activeWorkdayId with
  | none => []
  | some workdayId =>
    let clockSessionId := store.activeClockSessionId
    locations.map fun loc =>
      { p_workday_id := workdayId
        p_latitude := loc.coords.latitude
        p_longitude := loc.coords.longitude
        p_clock_session_id := clockSessionId
        p_accuracy := loc.coords.accuracy
        p_altitude := loc.coords.altitude
        p_speed := loc.coords.speed
        p_heading := loc.coords.heading
        p_recorded_at := loc.timestamp }

end LocationService

namespace EmployeeContext

/-- Row of the organization_member table. -/
structure OrgMember where
  id : String
  organization_id : String
  user_id : String
  created_at : Int
  deriving Repr, DecidableEq

/-- Row of the employee table. -/
structure EmployeeRow where
  id : String
  organization_id : String
  organization_member_id : Option String
  name : String
  email : Option String
  deriving Repr, DecidableEq

/-- Relational state visible to the identity resolver. -/
structure Db where
  members : List OrgMember
  employees : List EmployeeRow
  deriving Repr, DecidableEq

/-- Insert into a list sorted by created_at ascending. -/
def insertSorted (x : OrgMember) : List OrgMember → List OrgMember
  | [] => [x]
  | y :: ys => if x.created_at < y.created_at then x :: y :: ys else y :: insertSorted x ys

/-- Sort organization members by created_at ascending (oldest first), as
requested by the order clause of the membership query. -/
def sortMembers (l : List OrgMember) : List OrgMember :=
  l.foldr insertSorted []

/-- Semantics of a single-row select: succeeds exactly when one row matches,
and errors (returning no row) otherwise. -/
def single {α : Type} (l : List α) : Option α :=
  match l with
  | [x] => some x
  | _ => none

/-- Result of the identity resolver: the employee state, the error flag, and
the relational state after the optional backfill write. -/
structure FetchEmployeeResult where
  employee : Option EmployeeRow
  errorFlag : Bool
  db : Db
  deriving Repr, DecidableEq

/-- Embedding of fetchEmployee from the EmployeeProvider: (1) memberships of
the account ordered oldest first, taking the first and failing when there are
none; (2) employee by organization_member_id; (3) fallback employee lookup by
organization and account email, backfilling the membership link best-effort
(updOk tells whether that fire-and-forget update succeeded; its error is
ignored).  When no lookup finds an employee the resolver fails. -/
def fetchEmployee (userId : String) (userEmail : Option String) (updOk : Bool) (db : Db) :
    FetchEmployeeResult :=
  let orgMembers := sortMembers (db.members.filter fun mem => mem.user_id == userId)
  match orgMembers with
  | [] => ⟨none, true, db⟩
  | m :: _ =>
    match single (db.employees.filter fun e => e.organization_member_id == some m.id) with
    | some emp => ⟨some emp, false, db⟩
    | none =>
      match userEmail with
      | none => ⟨none, true, db⟩
      | some em =>
        match single (db.employees.filter fun e =>
            e.organization_id == m.organization_id && e.email == some em) with
        | none => ⟨none, true, db⟩
        | some emp2 =>
          let db2 : Db :=
            if emp2.organization_member_id == none && updOk then
              ⟨db.members,
                db.employees.map fun e =>
                  if e.id == emp2.id then { e with organization_member_id := some m.id } else e⟩
            else db
          ⟨some emp2, false, db2⟩

end EmployeeContext

namespace TimeHistory

/-- Row of the time_entries table as selected by fetchTimeEntries. -/
structure DbTimeEntryRow where
  id : String
  start_ts : Int
  end_ts : Option Int
  duration_minutes : Int
  notes : Option String
  status : String
  locked : Bool
  property_id : Option String
  billing_category_id : Option String
  unit_id : Option String
  deriving Repr, DecidableEq

/-- Client-side list item of the history screen. -/
structure TEntry where
  id : String
  start_time : Int
  end_time : Option Int
  property_id : Option String
  billing_category_id : Option String
  unit_id : Option String
  notes : Option String
  status : String
  locked : Bool
  is_editable : Bool
  deriving Repr, DecidableEq

/-- Mapping performed by fetchTimeEntries from table rows to list items,
deriving is_editable as not locked and status different from invoiced. -/
def mapTimeEntries (rows : List DbTimeEntryRow) : List TEntry :=
  rows.map fun e =>
    { id := e.id
      start_time := e.start_ts
      end_time := e.end_ts
      property_id := e.property_id
      billing_category_id := e.billing_category_id
      unit_id := e.unit_id
      notes := e.notes
      status := e.status
      locked := e.locked
      is_editable := !e.locked && e.status != "invoiced" }

/-- Partial update passed to handleUpdate; an outer none means the field is
absent from the update object, an inner none a null value. -/
structure EntryUpdates where
  start_time : Option Int
  end_time : Option (Option Int)
  property_id : Option (Option String)
  billing_category_id : Option (Option String)
  unit_id : Option (Option String)
  notes : Option (Option String)
  deriving Repr, DecidableEq

/-- Column update object sent to the time_entries update call. -/
structure DbUpdates where
  start_ts : Option Int
  end_ts : Option (Option Int)
  property_id : Option (Option String)
  billing_category_id : Option (Option String)
  unit_id : Option (Option String)
  notes : Option (Option String)
  duration_minutes : Option Int
  deriving Repr, DecidableEq

/-- Remote table mutation issued by a history-screen handler. -/
inductive HCall where
  | deleteEntry (id : String)
  | updateEntry (id : String) (upd : DbUpdates)
  deriving Repr, DecidableEq

/-- Observable outcome of a history-screen handler: the local list after the
handler, issued remote calls, whether an alert was shown, whether a refetch
was triggered, and whether the handler threw. -/
structure HandlerOutcome where
  entries : List TEntry
  calls : List HCall
  alerted : Bool
  refetched : Bool
  threw : Bool
  deriving Repr, DecidableEq

/-- Duration in whole minutes recomputed by handleUpdate when a time changes:
Math.floor of (end - start) / 60000 on millisecond timestamps. -/
def updateDurationMinutes (startTs endTs : Int) : Int :=
  ⌊(((endTs - startTs : Int) : ℚ)) / 60000⌋

/-- Duration in whole minutes computed by the history display: Math.floor of
(end - start) / 1000 / 60, or zero when the end timestamp is absent. -/
def calculateDuration (startTs : Int) (endTs : Option Int) : Int :=
  match endTs with
  | none => 0
  | some endMs => ⌊((endMs : ℚ) - (startTs : ℚ)) / 1000 / 60⌋

/-- Present-and-truthy value of a nullable column update, as tested by the
JavaScript truthiness checks in handleUpdate. -/
def tval (x : Option (Option Int)) : Option Int :=
  match x with
  | some (some v) => some v
  | _ => none

/-- Spread merge of a partial update onto a list item, as in the optimistic
local update. -/
def applyUpdates (e : TEntry) (u : EntryUpdates) : TEntry :=
  { e with
    start_time := u.start_time.getD e.start_time
    end_time := u.end_time.getD e.end_time
    property_id := u.property_id.getD e.property_id
    billing_category_id := u.billing_category_id.getD e.billing_category_id
    unit_id := u.unit_id.getD e.unit_id
    notes := u.notes.getD e.notes }

/-- Embedding of handleAnimatedDelete: a target entry whose is_editable flag
is false is rejected with an alert before any remote call; otherwise the
entry is removed optimistically and the delete is issued, with an alert and a
refetch on failure. -/
def handleAnimatedDelete (entries : List TEntry) (id : String) (deleteOk : Bool) :
    HandlerOutcome :=
  let entry := entries.find? fun e => e.id == id
  if entry.any fun e => !e.is_editable then
    ⟨entries, [], true, false, false⟩
  else
    let entries2 := entries.filter fun e => e.id != id
    if deleteOk then ⟨entries2, [.deleteEntry id], false, false, false⟩
    else ⟨entries2, [.deleteEntry id], true, true, false⟩

/-- Embedding of handleUpdate: a target entry whose is_editable flag is false
is rejected with an alert and a thrown error before any remote call;
otherwise the list is updated optimistically, the column update object is
built (recomputing duration_minutes when a time changed), and the update is
issued, with an alert, a refetch and a rethrow on failure. -/
def handleUpdate (entries : List TEntry) (id : String) (updates : EntryUpdates)
    (updOk : Bool) : HandlerOutcome :=
  let entry := entries.find? fun e => e.id == id
  if entry.any fun e => !e.is_editable then
    ⟨entries, [], true, false, true⟩
  else
    let entries2 := entries.map fun e => if e.id == id then applyUpdates e updates else e
    let db0 : DbUpdates :=
      ⟨updates.start_time, updates.end_time, updates.property_id,
        updates.billing_category_id, updates.unit_id, updates.notes, none⟩
    let db1 : DbUpdates :=
      if db0.start_ts.isSome || (tval db0.end_ts).isSome then
        match db0.start_ts <|> entry.map (fun e => e.start_time),
            tval db0.end_ts <|> entry.bind (fun e => e.end_time) with
        | some s, some e2 => { db0 with duration_minutes := some (updateDurationMinutes s e2) }
        | _, _ => db0
      else db0
    if updOk then ⟨entries2, [.updateEntry id db1], false, false, false⟩
    else ⟨entries2, [.updateEntry id db1], true, true, true⟩

end TimeHistory

/-- Recognizer for clock_in remote calls in a trace. -/
def isClockInCall : Eff → Bool
  | .clockInRpc _ => true
  | _ => false

/-- Recognizer for start_clock_session remote calls in a trace. -/
def isStartSessionCall : Eff → Bool
  | .startSessionRpc _ _ _ _ _ => true
  | _ => false

/-- Subsequence of a trace consisting of its clock_in and
start_clock_session remote calls, in program order. -/
def sessionCalls (t : List Eff) : List Eff :=
  t.filter fun e => isClockInCall e || isStartSessionCall e

/-- A sample endJob oracle used to witness the guarded no-ops. -/
def w10oj : EndJobOracle := ⟨.rpcError, true, true, 0⟩

/-- A sample clockOut oracle used to witness the guarded no-ops. -/
def w10oc : ClockOutOracle := ⟨⟨.rpcError, true, true, 0⟩, true⟩

/-- A sample endWorkday oracle used to witness the guarded no-ops. -/
def w10ow : EndWorkdayOracle := ⟨⟨.rpcError, true, true, 0⟩, true, true⟩

/-- Integer floor of an integer divided by 60000 over the rationals equals
Euclidean integer division by 60000. -/
lemma floor_div_60000 (n : Int) : ⌊((n : ℚ)) / 60000⌋ = n / 60000 := by
  have h := Rat.floor_intCast_div_natCast n 60000
  push_cast at h
  simpa using h

/-- The endJob duration computation is exact integer floor division of the
millisecond difference by 60000. -/
lemma durationMinutes_eq (s e : Int) : Workday.durationMinutes s e = (e - s) / 60000 := by
  unfold Workday.durationMinutes
  exact floor_div_60000 (e - s)

/-- A machine with an active session, used to witness the endJob behavior. -/
def w5m : Machine :=
  ⟨⟨some "w-1", some "p-1", some "sid-1", true, true, true⟩,
    ⟨some "w-1", some "p-1", some "sid-1"⟩⟩

/-- A fetched session row used to witness the endJob behavior. -/
def w5row : SessionRow :=
  ⟨"user-1", some "client-1", some "w-1", none, none, none, none, some 0⟩

/-- An endJob oracle whose insert fails after a successful update. -/
def w5o : EndJobOracle := ⟨.rpcOk w5row, true, false, 2850000⟩

/-- The time entry inserted by the witness run of endJob. -/
def w4entry : TimeEntryInsert :=
  ⟨"sid-1", "user-1", "emp-1", some "client-1", some "client-1", none, none, none, 0, 2850000,
    Workday.durationMinutes 0 2850000, none, "draft", "mobile", false⟩

/-- A machine whose storage persists a session id, for the refresh witness. -/
def w7m : Machine := ⟨Workday.initClient, ⟨none, none, some "sid-1"⟩⟩

/-- Refresh oracle reporting the persisted session already closed. -/
def w7oClosed : RefreshOracle :=
  ⟨.rpcOk [], .rpcOk [], .rpcOk "sid-1" (some 5), false, ⟨false, false⟩⟩

/-- Refresh oracle reporting the persisted session still open. -/
def w7oOpen : RefreshOracle :=
  ⟨.rpcOk [⟨"w-1", 0⟩], .rpcOk [⟨"p-1", some "w-1", 0⟩], .rpcOk "sid-1" none, true,
    ⟨true, false⟩⟩

/-- Job parameters with no optional fields, used by witnesses. -/
def w2p : JobParams := ⟨none, none, none, none⟩

/-- Oracle for a fully successful startJob run, used by witnesses. -/
def w2o : StartJobOracle :=
  ⟨.rpcOk "w-1" "p-1" false, ⟨true, true⟩, [], .rpcOk (some "s-1"), ⟨true, true⟩⟩

/-- A machine that is already clocked in, used by witnesses. -/
def w2m : Machine :=
  ⟨⟨some "w-1", some "p-1", none, false, false, false⟩, ⟨some "w-1", some "p-1", none⟩⟩

/-- A signed-in idle machine holding foreground location permission, used to
witness the tracking start inside startJob. -/
def w8m : Machine := ⟨⟨none, none, none, false, true, false⟩, ⟨none, none, none⟩⟩

/-- The effects of the witness startJob run that precede the tracking start. -/
def w8pre : List Eff :=
  [.clockInRpc none, .storeWorkdayEff (some "w-1"), .storePeriodEff (some "p-1"),
    .requestPermissionsEff,
    .startSessionRpc (some "w-1") none none none none, .storeSessionEff (some "s-1")]

/-- A single invoiced and locked time-entry row, used by the witness. -/
def w6rows : List TimeHistory.DbTimeEntryRow :=
  [⟨"id-1", 0, some 60000, 1, none, "invoiced", true, none, none, none⟩]

/-- An update changing the end time, used by the witness. -/
def w6upd : TimeHistory.EntryUpdates := ⟨none, some (some 120000), none, none, none, none⟩

/-- The organization membership used by the resolver witness. -/
def w9mem : EmployeeContext.OrgMember := ⟨"om-1", "org-1", "u-1", 10⟩

/-- An employee row already linked to the membership. -/
def w9emp1 : EmployeeContext.EmployeeRow := ⟨"e-1", "org-1", some "om-1", "Alice", some "a@x"⟩

/-- The same employee row without the membership link. -/
def w9emp2 : EmployeeContext.EmployeeRow := ⟨"e-1", "org-1", none, "Alice", some "a@x"⟩

/-- Database where the employee is found by membership id. -/
def w9db1 : EmployeeContext.Db := ⟨[w9mem], [w9emp1]⟩

/-- Database where the employee is found by email and then backfilled. -/
def w9db2 : EmployeeContext.Db := ⟨[w9mem], [w9emp2]⟩

-- THEOREMS

/-- C10: Guarded no-ops at each nesting level: endJob with no active clock
session, clockOut with no active clock period, and endWorkday with no active
workday each return normally, issue no remote call (empty effect trace), and
leave the machine, memory and durable storage unchanged. -/
theorem c10_guarded_noops (m : Machine) (emp : String)
    (oj : EndJobOracle) (oc : ClockOutOracle) (ow : EndWorkdayOracle) :
    (m.client.clockSessionId = none →
      Workday.endJob m.client m emp oj = ⟨Res.ok (), m, []⟩) ∧
    (m.client.clockPeriodId = none →
      Workday.clockOut m.client m emp oc = ⟨Res.ok (), m, []⟩) ∧
    (m.client.workdayId = none →
      Workday.endWorkday m.client m emp ow = ⟨Res.ok (), m, []⟩) := by
  refine ⟨fun h => ?_, fun h => ?_, fun h => ?_⟩ <;>
    simp [Workday.endJob, Workday.clockOut, Workday.endWorkday, h]

/-- C10 witness: the guarded no-ops evaluated in the idle machine. -/
theorem c10_guarded_noops_witness :
    Workday.initMachine.client.clockSessionId = none ∧
    Workday.initMachine.client.clockPeriodId = none ∧
    Workday.initMachine.client.workdayId = none ∧
    Workday.endJob Workday.initMachine.client Workday.initMachine "emp-1" w10oj =
      ⟨Res.ok (), Workday.initMachine, []⟩ ∧
    Workday.clockOut Workday.initMachine.client Workday.initMachine "emp-1" w10oc =
      ⟨Res.ok (), Workday.initMachine, []⟩ ∧
    Workday.endWorkday Workday.initMachine.client Workday.initMachine "emp-1" w10ow =
      ⟨Res.ok (), Workday.initMachine, []⟩ :=
  ⟨rfl, rfl, rfl,
    (c10_guarded_noops Workday.initMachine "emp-1" w10oj w10oc w10ow).1 rfl,
    (c10_guarded_noops Workday.initMachine "emp-1" w10oj w10oc w10ow).2.1 rfl,
    (c10_guarded_noops Workday.initMachine "emp-1" w10oj w10oc w10ow).2.2 rfl⟩

/-- C5: In endJob, when the session fetch and the end_time update succeed but
the time_entries insert fails, the call still returns normally, the active
session id is cleared in memory and durable storage, tracking is stopped, and
the session close (the end_time update) is never rolled back: the insert was
attempted and no compensating call follows it. -/
theorem c5_insert_failure_no_rollback (m : Machine) (emp sid : String) (o : EndJobOracle)
    (row : SessionRow) (s : Int)
    (h1 : m.client.clockSessionId = some sid)
    (h2 : o.fetch = FetchSession.rpcOk row)
    (h3 : row.start_time = some s)
    (h4 : o.updateOk = true)
    (h5 : o.insertOk = false) :
    (Workday.endJob m.client m emp o).result = Res.ok () ∧
    (Workday.endJob m.client m emp o).machine.client.clockSessionId = none ∧
    (Workday.endJob m.client m emp o).machine.store.activeClockSessionId = none ∧
    (Workday.endJob m.client m emp o).machine.client.isGpsTracking = false ∧
    Eff.updateSessionEndRpc sid o.now ∈ (Workday.endJob m.client m emp o).trace ∧
    Eff.stopTrackingEff ∈ (Workday.endJob m.client m emp o).trace ∧
    (∃ entry, Eff.insertTimeEntryRpc entry ∈ (Workday.endJob m.client m emp o).trace) := by
  simp [Workday.endJob, h1, h2, h3, h4]

/-- C5 witness: a concrete endJob run with a failing insert. -/
theorem c5_insert_failure_no_rollback_witness :
    (Workday.endJob w5m.client w5m "emp-1" w5o).result = Res.ok () ∧
    (Workday.endJob w5m.client w5m "emp-1" w5o).machine.client.clockSessionId = none ∧
    (Workday.endJob w5m.client w5m "emp-1" w5o).machine.store.activeClockSessionId = none ∧
    (Workday.endJob w5m.client w5m "emp-1" w5o).machine.client.isGpsTracking = false ∧
    Eff.updateSessionEndRpc "sid-1" w5o.now ∈ (Workday.endJob w5m.client w5m "emp-1" w5o).trace ∧
    Eff.stopTrackingEff ∈ (Workday.endJob w5m.client w5m "emp-1" w5o).trace ∧
    (∃ entry, Eff.insertTimeEntryRpc entry ∈ (Workday.endJob w5m.client w5m "emp-1" w5o).trace) :=
  c5_insert_failure_no_rollback w5m "emp-1" "sid-1" w5o w5row 0 rfl rfl rfl rfl rfl

/-- C3: For every batch delivered to the background handler, a null stored
workday id drops the whole batch with zero append_location_point calls;
otherwise every point is forwarded with that workday id and the currently
stored (possibly null) session id, so no point is ever forwarded with a null
workday id. -/
theorem c3_batch_drop_or_forward (st : Store)
    (locations : List LocationService.LocationObject) :
    (st.activeWorkdayId = none → LocationService.saveLocationPoints st locations = []) ∧
    (∀ w, st.activeWorkdayId = some w →
      LocationService.saveLocationPoints st locations =
        (locations.map fun loc =>
          ⟨w, loc.coords.latitude, loc.coords.longitude, st.activeClockSessionId,
            loc.coords.accuracy, loc.coords.altitude, loc.coords.speed, loc.coords.heading,
            loc.timestamp⟩) ∧
      ∀ call ∈ LocationService.saveLocationPoints st locations, call.p_workday_id = w) := by
  constructor
  · intro h
    simp [LocationService.saveLocationPoints, h]
  · intro w h
    constructor
    · simp [LocationService.saveLocationPoints, h]
    · intro call hc
      simp [LocationService.saveLocationPoints, h] at hc
      obtain ⟨loc, _, rfl⟩ := hc
      rfl

/-- A batch of two location points used to witness the forwarding rule. -/
def w3locs : List LocationService.LocationObject :=
  [⟨⟨1, 2, some 3, none, none, none⟩, 100⟩, ⟨⟨4, 5, none, some 6, none, none⟩, 200⟩]

/-- C3 witness: the empty-store drop and the forwarding of a concrete batch. -/
theorem c3_batch_drop_or_forward_witness :
    LocationService.saveLocationPoints ⟨none, none, some "sid-1"⟩ w3locs = [] ∧
    LocationService.saveLocationPoints ⟨some "w-1", none, some "sid-1"⟩ w3locs =
      (w3locs.map fun loc =>
        ⟨"w-1", loc.coords.latitude, loc.coords.longitude, some "sid-1",
          loc.coords.accuracy, loc.coords.altitude, loc.coords.speed, loc.coords.heading,
          loc.timestamp⟩) :=
  ⟨(c3_batch_drop_or_forward ⟨none, none, some "sid-1"⟩ w3locs).1 rfl,
    ((c3_batch_drop_or_forward ⟨some "w-1", none, some "sid-1"⟩ w3locs).2 "w-1" rfl).1⟩

/-- The witness run of endJob inserts exactly the witness entry. -/
lemma w4entry_mem :
    Eff.insertTimeEntryRpc w4entry ∈ (Workday.endJob w5m.client w5m "emp-1" w5o).trace := by
  simp [Workday.endJob, w5m, w5o, w5row, w4entry]

/-- C4: Every time entry inserted by endJob records the duration as the
integer floor of the millisecond difference of its stored end and start
timestamps divided by 60000; the history screen display computation and the
handleUpdate recomputation produce the same floor; and the spec example
(start 10:00:00, end 10:47:30, a difference of 2850000 ms) yields 47. -/
theorem c4_duration_floor :
    (∀ (m : Machine) (emp : String) (o : EndJobOracle) (entry : TimeEntryInsert),
      Eff.insertTimeEntryRpc entry ∈ (Workday.endJob m.client m emp o).trace →
        entry.duration_minutes = (entry.end_ts - entry.start_ts) / 60000) ∧
    (∀ s e : Int, TimeHistory.calculateDuration s (some e) = (e - s) / 60000) ∧
    (∀ s e : Int, TimeHistory.updateDurationMinutes s e = (e - s) / 60000) ∧
    Workday.durationMinutes 0 2850000 = 47 := by
  refine ⟨?_, ?_, ?_, ?_⟩
  · intro m emp o entry hmem
    rcases hcs : m.client.clockSessionId with _ | sid
    · simp [Workday.endJob, hcs] at hmem
    · rcases hf : o.fetch with _ | row
      · simp [Workday.endJob, hcs, hf] at hmem
      · rcases hst : row.start_time with _ | s
        · simp [Workday.endJob, hcs, hf, hst] at hmem
        · rcases hu : o.updateOk
          · simp [Workday.endJob, hcs, hf, hst, hu] at hmem
          · simp [Workday.endJob, hcs, hf, hst, hu] at hmem
            subst hmem
            simpa using durationMinutes_eq s o.now
  · intro s e
    have h1 : ((e : ℚ) - (s : ℚ)) / 1000 / 60 = (((e - s : Int) : ℚ)) / 60000 := by
      push_cast
      ring
    simp only [TimeHistory.calculateDuration]
    rw [h1, floor_div_60000]
  · intro s e
    unfold TimeHistory.updateDurationMinutes
    exact floor_div_60000 (e - s)
  · rw [durationMinutes_eq]
    rfl

/-- C4 witness: the concrete endJob run of the C5 witness inserts an entry
with start 0 ms and end 2850000 ms whose recorded duration is 47 minutes. -/
theorem c4_duration_floor_witness :
    (Eff.insertTimeEntryRpc w4entry ∈ (Workday.endJob w5m.client w5m "emp-1" w5o).trace) ∧
    w4entry.duration_minutes = (w4entry.end_ts - w4entry.start_ts) / 60000 ∧
    w4entry.duration_minutes = 47 :=
  ⟨w4entry_mem, c4_duration_floor.1 w5m "emp-1" w5o w4entry w4entry_mem, by
    have h := c4_duration_floor.2.2.2
    simpa [w4entry] using h⟩

/-- C7: On refresh, a persisted active session id is cleared in memory and in
durable storage when the server row for it carries a set end_time or the
lookup errors, and the session is kept only when the row exists with
end_time unset (in which case the persisted id is left in place). -/
theorem c7_refresh_reconciles_session (m : Machine) (o : RefreshOracle) (sid : String)
    (h : m.store.activeClockSessionId = some sid) :
    ((o.session = SessionLookup.rpcError ∨ ∃ i t, o.session = SessionLookup.rpcOk i (some t)) →
      (Workday.refreshState m o).client.clockSessionId = none ∧
      (Workday.refreshState m o).store.activeClockSessionId = none) ∧
    (∀ i, o.session = SessionLookup.rpcOk i none →
      (Workday.refreshState m o).client.clockSessionId = some i ∧
      (Workday.refreshState m o).store.activeClockSessionId = some sid) := by
  constructor
  · rintro (hos | ⟨i, t, hos⟩) <;> simp [Workday.refreshState, h, hos]
  · intro i hos
    obtain ⟨ow, op, os, otr, opm⟩ := o
    simp only at hos
    subst hos
    rcases ow with _ | (_ | ⟨rw, rws⟩) <;>
      rcases op with _ | (_ | ⟨⟨rpid, rpwid, rpst⟩, rps⟩) <;>
      (try rcases rpwid with _ | w) <;>
      simp [Workday.refreshState, h]

/-- C7 witness: refresh on a launch with a persisted session id, once with
the server reporting the session closed and once still open. -/
theorem c7_refresh_reconciles_session_witness :
    (Workday.refreshState w7m w7oClosed).client.clockSessionId = none ∧
    (Workday.refreshState w7m w7oClosed).store.activeClockSessionId = none ∧
    (Workday.refreshState w7m w7oOpen).client.clockSessionId = some "sid-1" ∧
    (Workday.refreshState w7m w7oOpen).store.activeClockSessionId = some "sid-1" := by
  have h1 := (c7_refresh_reconciles_session w7m w7oClosed "sid-1" rfl).1
    (Or.inr ⟨"sid-1", 5, rfl⟩)
  have h2 := (c7_refresh_reconciles_session w7m w7oOpen "sid-1" rfl).2 "sid-1" rfl
  exact ⟨h1.1, h1.2, h2.1, h2.2⟩

/-- Clearing the active session preserves the nesting invariant. -/
lemma nested_clear (c : Client) (h : Workday.Nested c) :
    Workday.Nested { c with clockSessionId := none, isGpsTracking := false } :=
  ⟨fun hc => absurd rfl hc, h.2⟩

/-- The machine after endJob is either unchanged (guard or throw) or the
input machine with the active session cleared and tracking stopped. -/
lemma endJob_machine_cases (m : Machine) (emp : String) (o : EndJobOracle) :
    (Workday.endJob m.client m emp o).machine = m ∨
    (Workday.endJob m.client m emp o).machine =
      ⟨{ m.client with clockSessionId := none, isGpsTracking := false },
        { m.store with activeClockSessionId := none }⟩ := by
  rcases hcs : m.client.clockSessionId with _ | sid
  · left
    simp [Workday.endJob, hcs]
  · rcases hf : o.fetch with _ | row
    · left
      simp [Workday.endJob, hcs, hf]
    · rcases hst : row.start_time with _ | s
      · left
        simp [Workday.endJob, hcs, hf, hst]
      · rcases hu : o.updateOk
        · left
          simp [Workday.endJob, hcs, hf, hst, hu]
        · right
          simp [Workday.endJob, hcs, hf, hst, hu]

/-- A top-level clockIn preserves the nesting invariant. -/
lemma nested_clockIn (m : Machine) (n : Option String) (o : ClockInData) (p : Perms)
    (h : Workday.Nested m.client) :
    Workday.Nested (Workday.clockIn m n o p).machine.client := by
  cases o with
  | rpcError => exact h
  | noData => exact h
  | rpcOk w pid r =>
    refine ⟨fun _ => ?_, fun _ => ?_⟩ <;> simp [Workday.clockIn]

/-- A top-level endJob preserves the nesting invariant. -/
lemma nested_endJob (m : Machine) (emp : String) (o : EndJobOracle)
    (h : Workday.Nested m.client) :
    Workday.Nested (Workday.endJob m.client m emp o).machine.client := by
  rcases endJob_machine_cases m emp o with hm | hm <;> rw [hm]
  · exact h
  · exact nested_clear m.client h

/-- A top-level clockOut preserves the nesting invariant. -/
lemma nested_clockOut (m : Machine) (emp : String) (o : ClockOutOracle)
    (h : Workday.Nested m.client) :
    Workday.Nested (Workday.clockOut m.client m emp o).machine.client := by
  rcases hcp : m.client.clockPeriodId with _ | pid
  · have hout : (Workday.clockOut m.client m emp o).machine = m := by
      simp [Workday.clockOut, hcp]
    rw [hout]
    exact h
  · rcases hcs : m.client.clockSessionId with _ | sid
    · rcases hok : o.clockOutOk
      · have hout : (Workday.clockOut m.client m emp o).machine = m := by
          simp [Workday.clockOut, hcp, hcs, hok]
        rw [hout]
        exact h
      · have hout : (Workday.clockOut m.client m emp o).machine =
            ⟨{ m.client with
                isGpsTracking := false, clockPeriodId := none, clockSessionId := none },
              { m.store with activeClockPeriodId := none, activeClockSessionId := none }⟩ := by
          simp [Workday.clockOut, hcp, hcs, hok]
        rw [hout]
        exact ⟨fun hc => absurd rfl hc, fun hc => absurd rfl hc⟩
    · rcases hstep : Workday.endJob m.client m emp o.endJob with ⟨res, m1, t1⟩
      have hm1 : m1 = m ∨ m1 =
          ⟨{ m.client with clockSessionId := none, isGpsTracking := false },
            { m.store with activeClockSessionId := none }⟩ := by
        have hc := endJob_machine_cases m emp o.endJob
        rw [hstep] at hc
        simpa using hc
      have hn1 : Workday.Nested m1.client := by
        rcases hm1 with rfl | rfl
        · exact h
        · exact nested_clear m.client h
      cases res with
      | ok v =>
        rcases hok : o.clockOutOk
        · have hout : (Workday.clockOut m.client m emp o).machine = m1 := by
            simp [Workday.clockOut, hcp, hcs, hstep, hok]
          rw [hout]
          exact hn1
        · have hout : (Workday.clockOut m.client m emp o).machine =
              ⟨{ m1.client with
                  isGpsTracking := false, clockPeriodId := none, clockSessionId := none },
                { m1.store with activeClockPeriodId := none, activeClockSessionId := none }⟩ := by
            simp [Workday.clockOut, hcp, hcs, hstep, hok]
          rw [hout]
          exact ⟨fun hc => absurd rfl hc, fun hc => absurd rfl hc⟩
      | thrown =>
        have hout : (Workday.clockOut m.client m emp o).machine = m1 := by
          simp [Workday.clockOut, hcp, hcs, hstep]
        rw [hout]
        exact hn1

/-- A top-level endWorkday preserves the nesting invariant. -/
lemma nested_endWorkday (m : Machine) (emp : String) (o : EndWorkdayOracle)
    (h : Workday.Nested m.client) :
    Workday.Nested (Workday.endWorkday m.client m emp o).machine.client := by
  rcases hw : m.client.workdayId with _ | wid
  · have hout : (Workday.endWorkday m.client m emp o).machine = m := by
      simp [Workday.endWorkday, hw]
    rw [hout]
    exact h
  · rcases hcs : m.client.clockSessionId with _ | sid
    · rcases hok : o.endWorkdayOk
      · have hout : (Workday.endWorkday m.client m emp o).machine = m := by
          simp [Workday.endWorkday, hw, hcs, hok]
        rw [hout]
        exact h
      · have hout : (Workday.endWorkday m.client m emp o).machine =
            ⟨{ m.client with
                isGpsTracking := false, workdayId := none, clockPeriodId := none,
                clockSessionId := none },
              ⟨none, none, none⟩⟩ := by
          simp [Workday.endWorkday, hw, hcs, hok]
        rw [hout]
        exact ⟨fun hc => absurd rfl hc, fun hc => absurd rfl hc⟩
    · rcases hstep : Workday.endJob m.client m emp o.endJob with ⟨res, m1, t1⟩
      have hm1 : m1 = m ∨ m1 =
          ⟨{ m.client with clockSessionId := none, isGpsTracking := false },
            { m.store with activeClockSessionId := none }⟩ := by
        have hc := endJob_machine_cases m emp o.endJob
        rw [hstep] at hc
        simpa using hc
      have hn1 : Workday.Nested m1.client := by
        rcases hm1 with rfl | rfl
        · exact h
        · exact nested_clear m.client h
      cases res with
      | ok v =>
        rcases hok : o.endWorkdayOk
        · have hout : (Workday.endWorkday m.client m emp o).machine = m1 := by
            simp [Workday.endWorkday, hw, hcs, hstep, hok]
          rw [hout]
          exact hn1
        · have hout : (Workday.endWorkday m.client m emp o).machine =
              ⟨{ m1.client with
                  isGpsTracking := false, workdayId := none, clockPeriodId := none,
                  clockSessionId := none },
                ⟨none, none, none⟩⟩ := by
            simp [Workday.endWorkday, hw, hcs, hstep, hok]
          rw [hout]
          exact ⟨fun hc => absurd rfl hc, fun hc => absurd rfl hc⟩
      | thrown =>
        have hout : (Workday.endWorkday m.client m emp o).machine = m1 := by
          simp [Workday.endWorkday, hw, hcs, hstep]
        rw [hout]
        exact hn1

/-- A top-level startJob preserves the nesting invariant. -/
lemma nested_startJob (m : Machine) (p : JobParams) (o : StartJobOracle)
    (h : Workday.Nested m.client) :
    Workday.Nested (Workday.startJob m.client m p o).machine.client := by
  rcases hcp : m.client.clockPeriodId with _ | pid
  · rcases hcd : o.clockInData with _ | _ | ⟨w, cpid, r⟩
    · have hout : (Workday.startJob m.client m p o).machine = m := by
        simp [Workday.startJob, Workday.clockIn, hcp, hcd]
      rw [hout]
      exact h
    · have hout : (Workday.startJob m.client m p o).machine = m := by
        simp [Workday.startJob, Workday.clockIn, hcp, hcd]
      rw [hout]
      exact h
    · rcases hsess : o.session with _ | sid
      · refine ⟨fun _ => ?_, fun _ => ?_⟩ <;>
          simp [Workday.startJob, Workday.clockIn, hcp, hcd, hsess]
      · refine ⟨fun _ => ?_, fun _ => ?_⟩ <;>
          · simp only [Workday.startJob, Workday.clockIn, hcp, hcd, hsess]
            split <;> simp
  · rcases hwd : m.client.workdayId with _ | w
    · exact absurd hwd (h.2 (by simp [hcp]))
    · rcases hsess : o.session with _ | sid
      · have hout : (Workday.startJob m.client m p o).machine = m := by
          simp [Workday.startJob, hcp, hwd, hsess]
        rw [hout]
        exact h
      · refine ⟨fun _ => ?_, fun _ => ?_⟩ <;>
          · simp only [Workday.startJob, hcp, hwd, hsess]
            split <;> simp [hcp, hwd]

/-- Every top-level action preserves the nesting invariant. -/
lemma nested_step (emp : String) (m : Machine) (a : Workday.Action)
    (h : Workday.Nested m.client) : Workday.Nested (Workday.step emp m a).client := by
  cases a with
  | clockInAct n o p => exact nested_clockIn m n o p h
  | clockOutAct o => exact nested_clockOut m emp o h
  | startJobAct p o => exact nested_startJob m p o h
  | endJobAct o => exact nested_endJob m emp o h
  | endWorkdayAct o => exact nested_endWorkday m emp o h

/-- C1: For every sequence of clockIn, startJob, endJob, clockOut and
endWorkday actions starting from the signed-in idle state (all three active
ids null), the state after every completed action satisfies the nesting
invariant: an active clock session implies an active clock period and an
active clock period implies an active workday.  Each nesting level is a
single optional identifier field, so at most one id per level is active by
construction. -/
theorem c1_nesting_invariant (emp : String) (acts : List Workday.Action) :
    Workday.Nested (Workday.run emp Workday.initMachine acts).client := by
  suffices hgen : ∀ (l : List Workday.Action) (m : Machine),
      Workday.Nested m.client → Workday.Nested (Workday.run emp m l).client by
    exact hgen acts Workday.initMachine ⟨fun hc => absurd rfl hc, fun hc => absurd rfl hc⟩
  intro l
  induction l with
  | nil => exact fun m hm => hm
  | cons a rest ih =>
    intro m hm
    exact ih (Workday.step emp m a) (nested_step emp m a hm)

/-- C2: A startJob invocation with no active clock period issues exactly one
clock_in call, and when it completes without throwing it issues exactly one
start_clock_session call with the clock_in call strictly first among these
remote calls; a startJob invocation with an active clock period issues no
clock_in call and, when it completes without throwing, exactly one
start_clock_session call. -/
theorem c2_startJob_calls (m : Machine) (p : JobParams) (o : StartJobOracle) :
    (m.client.clockPeriodId = none →
      (Workday.startJob m.client m p o).trace.countP isClockInCall = 1 ∧
      ((Workday.startJob m.client m p o).result ≠ Res.thrown →
        (Workday.startJob m.client m p o).trace.countP isStartSessionCall = 1 ∧
        ∃ a b, sessionCalls (Workday.startJob m.client m p o).trace = [a, b] ∧
          isClockInCall a = true ∧ isStartSessionCall b = true)) ∧
    (m.client.clockPeriodId ≠ none →
      (Workday.startJob m.client m p o).trace.countP isClockInCall = 0 ∧
      ((Workday.startJob m.client m p o).result ≠ Res.thrown →
        (Workday.startJob m.client m p o).trace.countP isStartSessionCall = 1)) := by
  constructor
  · intro hcp
    cases hcd : o.clockInData with
    | rpcError =>
      simp [Workday.startJob, Workday.clockIn, hcp, hcd, isClockInCall, isStartSessionCall,
        sessionCalls]
    | noData =>
      simp [Workday.startJob, Workday.clockIn, hcp, hcd, isClockInCall, isStartSessionCall,
        sessionCalls]
    | rpcOk w cpid r =>
      cases hsess : o.session with
      | rpcError =>
        simp [Workday.startJob, Workday.clockIn, hcp, hcd, hsess, isClockInCall,
          isStartSessionCall, sessionCalls]
      | rpcOk sid =>
        simp only [Workday.startJob, Workday.clockIn, hcp, hcd, hsess]
        split <;>
          · simp [isClockInCall, isStartSessionCall, sessionCalls]
            exact ⟨_, _, ⟨rfl, rfl⟩, rfl, rfl⟩
  · intro hcp
    rcases hcpv : m.client.clockPeriodId with _ | pid
    · exact absurd hcpv hcp
    · rcases hwd : m.client.workdayId with _ | w
      · rcases hrows : o.periodRows with _ | ⟨row, rows⟩
        · simp [Workday.startJob, hcpv, hwd, hrows, isClockInCall, isStartSessionCall]
        · cases hsess : o.session with
          | rpcError =>
            simp [Workday.startJob, hcpv, hwd, hrows, hsess, isClockInCall, isStartSessionCall]
          | rpcOk sid =>
            simp only [Workday.startJob, hcpv, hwd, hrows, hsess]
            split <;> simp [isClockInCall, isStartSessionCall]
      · cases hsess : o.session with
        | rpcError =>
          simp [Workday.startJob, hcpv, hwd, hsess, isClockInCall, isStartSessionCall]
        | rpcOk sid =>
          simp only [Workday.startJob, hcpv, hwd, hsess]
          split <;> simp [isClockInCall, isStartSessionCall]

/-- C2 witness: a successful startJob run from the idle machine issues one
clock_in then one start_clock_session, and a run while clocked in issues no
clock_in and one start_clock_session. -/
theorem c2_startJob_calls_witness :
    (Workday.startJob Workday.initMachine.client Workday.initMachine w2p w2o).trace.countP
        isClockInCall = 1 ∧
    (Workday.startJob Workday.initMachine.client Workday.initMachine w2p w2o).trace.countP
        isStartSessionCall = 1 ∧
    (∃ a b,
      sessionCalls
          (Workday.startJob Workday.initMachine.client Workday.initMachine w2p w2o).trace =
        [a, b] ∧ isClockInCall a = true ∧ isStartSessionCall b = true) ∧
    (Workday.startJob w2m.client w2m w2p w2o).trace.countP isClockInCall = 0 ∧
    (Workday.startJob w2m.client w2m w2p w2o).trace.countP isStartSessionCall = 1 := by
  have h1 := (c2_startJob_calls Workday.initMachine w2p w2o).1 rfl
  have h2 := (c2_startJob_calls w2m w2p w2o).2 (by decide)
  have h1b := h1.2 (by decide)
  exact ⟨h1.1, h1b.1, h1b.2, h2.1, h2.2 (by decide)⟩

/-- Decomposing a list that ends in a single occurrence of x against a split
around x: the prefix and suffix are forced. -/
lemma append_singleton_eq {α : Type} (t pre post : List α) (x : α) (hx : x ∉ t)
    (h : t ++ [x] = pre ++ x :: post) : pre = t ∧ post = [] := by
  have h2 := congrArg List.reverse h
  simp only [List.reverse_append, List.reverse_cons, List.reverse_singleton,
    List.singleton_append, List.append_assoc] at h2
  rcases hr : post.reverse with _ | ⟨y, ys⟩
  · rw [hr] at h2
    simp only [List.nil_append] at h2
    have hpost : post = [] := by
      have := congrArg List.reverse hr
      simpa using this
    have hpre : pre = t := by
      have h3 : t.reverse = pre.reverse := by
        injection h2 with _ h3
      have h4 := congrArg List.reverse h3
      simpa using h4.symm
    exact ⟨hpre, hpost⟩
  · rw [hr] at h2
    simp only [List.cons_append] at h2
    injection h2 with hxy h3
    exfalso
    apply hx
    have hxr : x ∈ t.reverse := by
      rw [h3, hxy]
      exact List.mem_append_right ys (List.mem_cons_self y (pre.reverse))
    simpa using hxr
/-- Shape of a startJob trace around a tracking start: either tracking never
starts, or the session procedure returned data, the tracking start is the
final effect, and the store of the returned session id precedes it. -/
lemma startJob_tracking_shape (m : Machine) (p : JobParams) (o : StartJobOracle) :
    Eff.startTrackingEff ∉ (Workday.startJob m.client m p o).trace ∨
    (∃ v T, o.session = SessionRpc.rpcOk v ∧
      (Workday.startJob m.client m p o).trace = T ++ [Eff.startTrackingEff] ∧
      Eff.startTrackingEff ∉ T ∧ Eff.storeSessionEff v ∈ T) := by
  rcases hcp : m.client.clockPeriodId with _ | pid
  · rcases hcd : o.clockInData with _ | _ | ⟨w, cpid, r⟩
    · left
      simp [Workday.startJob, Workday.clockIn, hcp, hcd]
    · left
      simp [Workday.startJob, Workday.clockIn, hcp, hcd]
    · rcases hsess : o.session with _ | sid
      · left
        simp [Workday.startJob, Workday.clockIn, hcp, hcd, hsess]
      · simp only [Workday.startJob, Workday.clockIn, hcp, hcd, hsess]
        split
        · right
          exact ⟨sid, _, rfl, rfl, by simp, by simp⟩
        · left
          simp
  · rcases hwd : m.client.workdayId with _ | w
    · rcases hrows : o.periodRows with _ | ⟨row, rows⟩
      · left
        simp [Workday.startJob, hcp, hwd, hrows]
      · rcases hsess : o.session with _ | sid
        · left
          simp [Workday.startJob, hcp, hwd, hrows, hsess]
        · simp only [Workday.startJob, hcp, hwd, hrows, hsess]
          split
          · right
            exact ⟨sid, _, rfl, rfl, by simp, by simp⟩
          · left
            simp
    · rcases hsess : o.session with _ | sid
      · left
        simp [Workday.startJob, hcp, hwd, hsess]
      · simp only [Workday.startJob, hcp, hwd, hsess]
        split
        · right
          exact ⟨sid, _, rfl, rfl, by simp, by simp⟩
        · left
          simp

/-- C8 counterexample: in the legacy WorkdayProvider revision kept at
src/contexts/WorkdayContext.tsx, a successful clockIn with foreground
permission granted starts location tracking itself, before any clock session
exists, so tracking is not started only inside startJob. -/
theorem c8_counterexample_legacy_clockin_tracks :
    Eff.startTrackingEff ∈
      (Legacy.clockIn Workday.initMachine none (ClockInData.rpcOk "w-1" "p-1" false)
        ⟨true, true⟩ true).trace := by
  simp [Legacy.clockIn]

/-- C8 amended: in the current WorkdayProvider revision, clockIn stores the
workday and clock-period ids and requests permission but never starts
tracking, and in startJob every tracking start is preceded by the durable
store of the session id that the start_clock_session call returned. -/
theorem c8_tracking_only_after_session_store (m : Machine) (notes : Option String)
    (oc : ClockInData) (pm : Perms) (w cpid : String) (rep : Bool) (p : JobParams)
    (o : StartJobOracle) (pre post : List Eff) :
    Eff.startTrackingEff ∉ (Workday.clockIn m notes oc pm).trace ∧
    (oc = ClockInData.rpcOk w cpid rep →
      (Workday.clockIn m notes oc pm).machine.store.activeWorkdayId = some w ∧
      (Workday.clockIn m notes oc pm).machine.store.activeClockPeriodId = some cpid ∧
      Eff.requestPermissionsEff ∈ (Workday.clockIn m notes oc pm).trace) ∧
    ((Workday.startJob m.client m p o).trace = pre ++ Eff.startTrackingEff :: post →
      ∃ v, o.session = SessionRpc.rpcOk v ∧ Eff.storeSessionEff v ∈ pre) := by
  refine ⟨?_, ?_, ?_⟩
  · cases oc <;> simp [Workday.clockIn]
  · intro hok
    subst hok
    simp [Workday.clockIn]
  · intro h
    rcases startJob_tracking_shape m p o with hno | ⟨v, T, hsess, htr, hxT, hstore⟩
    · exfalso
      apply hno
      rw [h]
      simp
    · rw [htr] at h
      obtain ⟨hpre, hpost⟩ := append_singleton_eq T pre post _ hxT h
      exact ⟨v, hsess, by rw [hpre]; exact hstore⟩

/-- C8 witness: a concrete clockIn run that stores ids without tracking, and
a concrete startJob run whose tracking start follows the session store. -/
theorem c8_tracking_only_after_session_store_witness :
    Eff.startTrackingEff ∉
      (Workday.clockIn w8m none (ClockInData.rpcOk "w-1" "p-1" false) ⟨true, true⟩).trace ∧
    (Workday.clockIn w8m none (ClockInData.rpcOk "w-1" "p-1" false)
        ⟨true, true⟩).machine.store.activeWorkdayId = some "w-1" ∧
    (Workday.clockIn w8m none (ClockInData.rpcOk "w-1" "p-1" false)
        ⟨true, true⟩).machine.store.activeClockPeriodId = some "p-1" ∧
    Eff.requestPermissionsEff ∈
      (Workday.clockIn w8m none (ClockInData.rpcOk "w-1" "p-1" false) ⟨true, true⟩).trace ∧
    (∃ v, w2o.session = SessionRpc.rpcOk v ∧ Eff.storeSessionEff v ∈ w8pre) := by
  have h := c8_tracking_only_after_session_store w8m none
    (ClockInData.rpcOk "w-1" "p-1" false) ⟨true, true⟩ "w-1" "p-1" false w2p w2o w8pre []
  have h2 := h.2.1 rfl
  exact ⟨h.1, h2.1, h2.2.1, h2.2.2, h.2.2 (by decide)⟩

/-- A fetched entry that is locked or invoiced has a false is_editable flag. -/
lemma mapped_not_editable (rows : List TimeHistory.DbTimeEntryRow)
    (e : TimeHistory.TEntry) (he : e ∈ TimeHistory.mapTimeEntries rows)
    (hl : e.locked = true ∨ e.status = "invoiced") : e.is_editable = false := by
  rcases List.mem_map.mp he with ⟨r, _, rfl⟩
  rcases hl with hl | hl <;> simp only at hl <;> simp [hl]

/-- C6: A history-screen edit or delete aimed at a fetched entry that is
locked or invoiced (hence has is_editable false) is rejected with an alert
before any remote call: the handlers issue no call, change no local state,
trigger no refetch, and handleUpdate throws. -/
theorem c6_locked_entries_rejected (rows : List TimeHistory.DbTimeEntryRow) (id : String)
    (u : TimeHistory.EntryUpdates) (ok1 ok2 : Bool) (e : TimeHistory.TEntry)
    (hfind : (TimeHistory.mapTimeEntries rows).find? (fun x => x.id == id) = some e)
    (hl : e.locked = true ∨ e.status = "invoiced") :
    TimeHistory.handleAnimatedDelete (TimeHistory.mapTimeEntries rows) id ok1 =
      ⟨TimeHistory.mapTimeEntries rows, [], true, false, false⟩ ∧
    TimeHistory.handleUpdate (TimeHistory.mapTimeEntries rows) id u ok2 =
      ⟨TimeHistory.mapTimeEntries rows, [], true, false, true⟩ := by
  have hmem : e ∈ TimeHistory.mapTimeEntries rows := List.mem_of_find?_eq_some hfind
  have hed : e.is_editable = false := mapped_not_editable rows e hmem hl
  constructor <;>
    simp [TimeHistory.handleAnimatedDelete, TimeHistory.handleUpdate, hfind, hed]

/-- C6 witness: the handlers reject a delete and an edit of a concrete
locked, invoiced entry. -/
theorem c6_locked_entries_rejected_witness :
    TimeHistory.handleAnimatedDelete (TimeHistory.mapTimeEntries w6rows) "id-1" true =
      ⟨TimeHistory.mapTimeEntries w6rows, [], true, false, false⟩ ∧
    TimeHistory.handleUpdate (TimeHistory.mapTimeEntries w6rows) "id-1" w6upd true =
      ⟨TimeHistory.mapTimeEntries w6rows, [], true, false, true⟩ :=
  c6_locked_entries_rejected w6rows "id-1" w6upd true true
    ⟨"id-1", 0, some 60000, none, none, none, none, "invoiced", true, false⟩
    (by decide) (Or.inl rfl)

/-- Membership in an insertion step of the member sort. -/
lemma mem_insertSorted (x : EmployeeContext.OrgMember) (l : List EmployeeContext.OrgMember)
    (y : EmployeeContext.OrgMember) :
    y ∈ EmployeeContext.insertSorted x l ↔ y = x ∨ y ∈ l := by
  induction l with
  | nil => simp [EmployeeContext.insertSorted]
  | cons z zs ih =>
    simp only [EmployeeContext.insertSorted]
    split <;> simp only [List.mem_cons, ih] <;> tauto

/-- Membership is preserved by the member sort. -/
lemma mem_sortMembers (l : List EmployeeContext.OrgMember) (y : EmployeeContext.OrgMember) :
    y ∈ EmployeeContext.sortMembers l ↔ y ∈ l := by
  induction l with
  | nil => simp [EmployeeContext.sortMembers]
  | cons z zs ih =>
    have hz : EmployeeContext.sortMembers (z :: zs) =
        EmployeeContext.insertSorted z (EmployeeContext.sortMembers zs) := rfl
    rw [hz, mem_insertSorted, ih, List.mem_cons]

/-- Inserting into a created_at sorted list keeps it sorted. -/
lemma sorted_insertSorted (x : EmployeeContext.OrgMember)
    (l : List EmployeeContext.OrgMember)
    (h : l.Sorted fun a b => a.created_at ≤ b.created_at) :
    (EmployeeContext.insertSorted x l).Sorted fun a b => a.created_at ≤ b.created_at := by
  induction l with
  | nil => simp [EmployeeContext.insertSorted]
  | cons y ys ih =>
    rcases List.sorted_cons.mp h with ⟨hy, hys⟩
    simp only [EmployeeContext.insertSorted]
    split
    · rename_i hlt
      refine List.sorted_cons.mpr ⟨?_, h⟩
      intro b hb
      rcases List.mem_cons.mp hb with rfl | hb
      · exact le_of_lt hlt
      · exact le_trans (le_of_lt hlt) (hy b hb)
    · rename_i hge
      refine List.sorted_cons.mpr ⟨?_, ih hys⟩
      intro b hb
      rcases (mem_insertSorted x ys b).mp hb with rfl | hb
      · exact le_of_not_lt hge
      · exact hy b hb

/-- The member sort produces a created_at sorted list. -/
lemma sorted_sortMembers (l : List EmployeeContext.OrgMember) :
    (EmployeeContext.sortMembers l).Sorted fun a b => a.created_at ≤ b.created_at := by
  induction l with
  | nil => simp [EmployeeContext.sortMembers]
  | cons z zs ih => exact sorted_insertSorted z (EmployeeContext.sortMembers zs) ih

/-- C9: The identity resolver fails when the account has no organization
membership; otherwise it selects an oldest membership of the account, returns
the unique employee linked to it when one exists, and otherwise falls back to
the organization-and-email lookup, backfilling the membership link onto an
unlinked hit best-effort (the returned employee and error flag do not depend
on the backfill outcome, and a linked hit leaves the database unchanged);
when both lookups fail the resolver fails. -/
theorem c9_identity_resolver (userId em : String) (updOk : Bool)
    (db : EmployeeContext.Db) :
    (EmployeeContext.sortMembers (db.members.filter fun x => x.user_id == userId) = [] →
      EmployeeContext.fetchEmployee userId (some em) updOk db = ⟨none, true, db⟩) ∧
    (∀ m rest,
      EmployeeContext.sortMembers (db.members.filter fun x => x.user_id == userId) =
        m :: rest →
      (m ∈ db.members ∧ m.user_id = userId ∧
        ∀ x ∈ db.members, x.user_id = userId → m.created_at ≤ x.created_at) ∧
      (∀ e, db.employees.filter (fun x => x.organization_member_id == some m.id) = [e] →
        EmployeeContext.fetchEmployee userId (some em) updOk db = ⟨some e, false, db⟩) ∧
      (∀ e2, EmployeeContext.single (db.employees.filter
            fun x => x.organization_member_id == some m.id) = none →
        db.employees.filter (fun x =>
            x.organization_id == m.organization_id && x.email == some em) = [e2] →
        (EmployeeContext.fetchEmployee userId (some em) updOk db).employee = some e2 ∧
        (EmployeeContext.fetchEmployee userId (some em) updOk db).errorFlag = false ∧
        (e2.organization_member_id = none → updOk = true →
          (EmployeeContext.fetchEmployee userId (some em) updOk db).db =
            ⟨db.members, db.employees.map fun x =>
              if x.id == e2.id then { x with organization_member_id := some m.id }
              else x⟩) ∧
        (e2.organization_member_id ≠ none →
          (EmployeeContext.fetchEmployee userId (some em) updOk db).db = db)) ∧
      (EmployeeContext.single (db.employees.filter
            fun x => x.organization_member_id == some m.id) = none →
        EmployeeContext.single (db.employees.filter fun x =>
            x.organization_id == m.organization_id && x.email == some em) = none →
        EmployeeContext.fetchEmployee userId (some em) updOk db = ⟨none, true, db⟩)) := by
  constructor
  · intro h0
    simp [EmployeeContext.fetchEmployee, h0]
  · intro m rest hm
    refine ⟨⟨?_, ?_, ?_⟩, ?_, ?_, ?_⟩
    · have hmem : m ∈ EmployeeContext.sortMembers
          (db.members.filter fun x => x.user_id == userId) := by
        rw [hm]
        exact List.mem_cons_self m rest
      have := (mem_sortMembers _ m).mp hmem
      exact (List.mem_filter.mp this).1
    · have hmem : m ∈ EmployeeContext.sortMembers
          (db.members.filter fun x => x.user_id == userId) := by
        rw [hm]
        exact List.mem_cons_self m rest
      have := (mem_sortMembers _ m).mp hmem
      have hb := (List.mem_filter.mp this).2
      exact eq_of_beq hb
    · intro x hx hux
      have hxf : x ∈ db.members.filter fun y => y.user_id == userId :=
        List.mem_filter.mpr ⟨hx, by simp [hux]⟩
      have hxs := (mem_sortMembers _ x).mpr hxf
      rw [hm] at hxs
      rcases List.mem_cons.mp hxs with rfl | hxs
      · exact le_refl _
      · have hs := sorted_sortMembers (db.members.filter fun y => y.user_id == userId)
        rw [hm] at hs
        exact (List.sorted_cons.mp hs).1 x hxs
    · intro e he
      simp [EmployeeContext.fetchEmployee, hm, he, EmployeeContext.single]
    · intro e2 hno he2
      refine ⟨?_, ?_, ?_, ?_⟩
      · simp only [EmployeeContext.fetchEmployee, hm, hno, he2]
        simp [EmployeeContext.single]
      · simp only [EmployeeContext.fetchEmployee, hm, hno, he2]
        simp [EmployeeContext.single]
      · intro h1 h2
        simp only [EmployeeContext.fetchEmployee, hm, hno, he2]
        simp [EmployeeContext.single, h1, h2]
      · intro h1
        rcases ho : e2.organization_member_id with _ | v
        · exact absurd ho h1
        · simp only [EmployeeContext.fetchEmployee, hm, hno, he2]
          simp [EmployeeContext.single, ho]
    · intro h1 h2
      simp only [EmployeeContext.fetchEmployee, hm, h1, h2]

/-- C9 witness: concrete resolver runs hitting the membership-id lookup, the
email fallback with backfill, and the no-membership failure. -/
theorem c9_identity_resolver_witness :
    EmployeeContext.fetchEmployee "u-1" (some "a@x") true w9db1 =
      ⟨some w9emp1, false, w9db1⟩ ∧
    (EmployeeContext.fetchEmployee "u-1" (some "a@x") true w9db2).employee = some w9emp2 ∧
    (EmployeeContext.fetchEmployee "u-1" (some "a@x") true w9db2).errorFlag = false ∧
    (EmployeeContext.fetchEmployee "u-1" (some "a@x") true w9db2).db = ⟨[w9mem], [w9emp1]⟩ ∧
    EmployeeContext.fetchEmployee "u-2" (some "a@x") true w9db1 = ⟨none, true, w9db1⟩ := by
  have h1 := ((c9_identity_resolver "u-1" "a@x" true w9db1).2 w9mem [] (by decide)).2.1
    w9emp1 (by decide)
  have h2 := ((c9_identity_resolver "u-1" "a@x" true w9db2).2 w9mem [] (by decide)).2.2.1
    w9emp2 (by decide) (by decide)
  have h3 := (c9_identity_resolver "u-2" "a@x" true w9db1).1 (by decide)
  exact ⟨h1, h2.1, h2.2.1, (h2.2.2.1 rfl rfl).trans (by decide), h3⟩
